import Mathlib

/-!
Verification development for the options page of the gerrit-monitor browser
extension (src/src/options.js and the configuration constants file).

The embedding is shallow: the `Options` class's two backing arrays
(`this.instances_`, `this.groupNames_`) become an `OptionsModel` record, each
method becomes a pure function from the pre-state (plus the outcomes of the
asynchronous persistence calls it awaits) to a record describing the calls it
made, the status text it set and the post-state.  DOM construction is a pure
rendering side effect with no influence on the model and is not embedded.

JavaScript regular expressions are embedded with a small Brzozowski-derivative
matcher over an explicit regex syntax tree; the two concrete pattern trees are
transcribed from the source pattern strings, taking JS template-literal
escaping into account (in a template literal the two characters backslash-dot
denote the single character dot, so the compiled GROUP_NAME pattern contains
the any-character metacharacter, not a literal dot).
-/

/-! ## A Brzozowski-derivative regular-expression matcher

`RE` is a regex syntax tree over character classes; `RE.matches` decides whole-
string membership, which is exactly what `REGEXP.exec(s) !== null` computes for
a pattern anchored with both a leading caret and a trailing dollar. -/

/-- Regex syntax: empty language, empty string, a character class, and the
concatenation, alternation and Kleene-star combinators. -/
inductive RE where
  | emp : RE
  | eps : RE
  | cls : (Char → Bool) → RE
  | cat : RE → RE → RE
  | alt : RE → RE → RE
  | star : RE → RE

/-- Does the regex accept the empty string? -/
def RE.nullable : RE → Bool
  | .emp => false
  | .eps => true
  | .cls _ => false
  | .cat a b => a.nullable && b.nullable
  | .alt a b => a.nullable || b.nullable
  | .star _ => true

/-- Alternation smart constructor: drops empty-language branches. -/
def RE.altS : RE → RE → RE
  | .emp, b => b
  | a, .emp => a
  | a, b => .alt a b

/-- Concatenation smart constructor: absorbs the empty language and drops
empty-string factors. -/
def RE.catS : RE → RE → RE
  | .emp, _ => .emp
  | _, .emp => .emp
  | .eps, b => b
  | a, .eps => a
  | a, b => .cat a b

/-- Brzozowski derivative of a regex by one character. -/
def RE.deriv : RE → Char → RE
  | .emp, _ => .emp
  | .eps, _ => .emp
  | .cls p, c => if p c then .eps else .emp
  | .cat a b, c =>
      if a.nullable then RE.altS (RE.catS (a.deriv c) b) (b.deriv c)
      else RE.catS (a.deriv c) b
  | .alt a b, c => RE.altS (a.deriv c) (b.deriv c)
  | .star a, c => RE.catS (a.deriv c) (.star a)

/-- Whole-list matching by iterated derivatives. -/
def RE.matchList : RE → List Char → Bool
  | r, [] => r.nullable
  | r, c :: cs => (r.deriv c).matchList cs

/-- Whole-string matching. -/
def RE.matches (r : RE) (s : String) : Bool :=
  r.matchList s.data

/-- One-or-more repetitions, the regex plus operator: X+ is X followed by X*. -/
def RE.plus (r : RE) : RE := .cat r (.star r)

/-! ## The concrete patterns from the configuration file -/

/-- The character class written [a-zA-Z0-9_-] in the source (the WORD_CHS
constant, minus its plus quantifier). -/
def isWordCh (c : Char) : Bool :=
  decide ((97 ≤ c.toNat ∧ c.toNat ≤ 122) ∨ (65 ≤ c.toNat ∧ c.toNat ≤ 90) ∨
    (48 ≤ c.toNat ∧ c.toNat ≤ 57) ∨ c = '_' ∨ c = '-')

/-- The JS regex any-character metacharacter (dot without the s flag): any
character except the four line terminators. -/
def isAnyCh (c : Char) : Bool :=
  !(c == '\n' || c == '\r' || c.toNat == 0x2028 || c.toNat == 0x2029)

/-- [a-zA-Z0-9_-]+ as a regex tree. -/
def wordRun : RE := RE.plus (.cls isWordCh)

/-- GROUP_NAME_REGEXP as actually compiled by the source.  The source builds
the pattern in a JS template literal as WORD_CHS, at-star, WORD_CHS,
backslash-dot-star, WORD_CHS; template-literal escaping turns backslash-dot
into a bare dot, so the compiled pattern is
caret [a-zA-Z0-9_-]+ at* [a-zA-Z0-9_-]+ ANY* [a-zA-Z0-9_-]+ dollar
where ANY is the any-character metacharacter.  The i flag is immaterial since
the classes already contain both cases and ANY is case-blind. -/
def GROUP_NAME_RE : RE :=
  .cat wordRun (.cat (.star (.cls (fun c => c == '@')))
    (.cat wordRun (.cat (.star (.cls isAnyCh)) wordRun)))

/-- Whether a string passes GROUP_NAME_REGEXP (exec result non-null; the
pattern is anchored at both ends, so this is whole-string matching). -/
def groupNameMatches (s : String) : Bool :=
  GROUP_NAME_RE.matches s

/-- The group-name pattern as the spec words it, with a LITERAL dot:
caret [a-zA-Z0-9_-]+ at* [a-zA-Z0-9_-]+ dot* [a-zA-Z0-9_-]+ dollar.
This definition follows the spec text, not the source, and exists only to be
compared with GROUP_NAME_RE. -/
def specGroupNameRE : RE :=
  .cat wordRun (.cat (.star (.cls (fun c => c == '@')))
    (.cat wordRun (.cat (.star (.cls (fun c => c == '.'))) wordRun)))

/-- Whole-string matching against the spec's literal-dot pattern. -/
def specGroupNameMatches (s : String) : Bool :=
  specGroupNameRE.matches s

/-- The eight characters of the scheme part https colon slash slash. -/
def httpsChars : List Char := ['h', 't', 't', 'p', 's', ':', '/', '/']

/-- The seven characters of the scheme part http colon slash slash. -/
def httpChars : List Char := ['h', 't', 't', 'p', ':', '/', '/']

/-- ORIGIN_REGEXP.exec applied to a host string (as a character list),
returning capture group 1.  The pattern is caret, group(https? colon slash
slash [^/]*), group(/[^/]+)*.  The trailing group may repeat zero times, so a
match exists exactly when the first group matches a prefix, i.e. when the
string starts with one of the two scheme parts; the greedy [^/]* makes group 1
the scheme part plus everything up to the first slash after it (or the whole
string when there is none). -/
def originExecList (cs : List Char) : Option (List Char) :=
  if cs.take 8 = httpsChars then
    some (httpsChars ++ (cs.drop 8).takeWhile (fun c => c != '/'))
  else if cs.take 7 = httpChars then
    some (httpChars ++ (cs.drop 7).takeWhile (fun c => c != '/'))
  else
    none

/-- ORIGIN_REGEXP.exec on a host string, returning capture group 1. -/
def originExec (host : String) : Option String :=
  (originExecList host.data).map String.mk

/-! ## The data model -/

/-- One Gerrit instance entry, the record literal pushed by addGerritInstance:
a host URL, a display name and an enabled flag. -/
structure Instance where
  host : String
  name : String
  enabled : Bool
deriving Repr, DecidableEq

/-- The in-memory model of the Options class (its fields this.instances_ and
this.groupNames_); the persisted options document has the same shape
(the object literal with fields instances and groupNames). -/
structure OptionsModel where
  instances : List Instance
  groupNames : List String
deriving Repr, DecidableEq

/-- A JavaScript error value, represented by its string form: jsString models
the String(error) conversion applied in the catch handlers. -/
structure JsError where
  str : String
deriving Repr, DecidableEq

/-- The String(error) conversion. -/
def jsString (e : JsError) : String := e.str

/-! ## addGerritInstance and addGroupName -/

/-- addGerritInstance host name enabled: scan for an existing instance with the
same host; the first hit has its name overwritten and its enabled flag set to
true (the source sets instance.enabled = true, not the argument) and the scan
returns; otherwise the new record is pushed at the end. -/
def addGerritInstance (l : List Instance) (host name : String) (enabled : Bool) :
    List Instance :=
  match l with
  | [] => [⟨host, name, enabled⟩]
  | i :: rest =>
      if i.host = host then { i with name := name, enabled := true } :: rest
      else i :: addGerritInstance rest host name enabled

/-- Number of instances in the list carrying a given host. -/
def hostCount (l : List Instance) (h : String) : Nat :=
  (l.filter (fun i => i.host = h)).length

/-- Outcome of one addGroupName call: either the name was appended (and a list
entry rendered), or a TypeError propagated out of the call with the list
unchanged and no status text set. -/
inductive AddGroupOutcome where
  | added (names : List String)
  | typeErrorThrown
deriving Repr, DecidableEq

/-- addGroupName groupName: the source scans with forEach and, on the first
element equal to groupName, the callback evaluates this.setStatusText — but
the callback is a plain unbound function (unlike the bound callbacks in
applyInstanceOptions and applyGroupNameOptions) and the module runs in strict
mode, so this is undefined there and the expression throws a TypeError that
propagates out of addGroupName before any status text is set and before the
push below the loop is reached.  With no duplicate the forEach does nothing
and the name is appended.  So the call throws exactly when the list already
contains the name, and otherwise appends it; no path sets a status text. -/
def addGroupName (names : List String) (g : String) : AddGroupOutcome :=
  if names.contains g then .typeErrorThrown
  else .added (names ++ [g])

/-! ## Saving -/

/-- The origins array built by saveInstanceOptions: for each enabled instance
in order, if ORIGIN_REGEXP matches its host, capture group 1 with the literal
suffix slash-star appended is pushed; disabled instances and non-matching
enabled instances contribute nothing. -/
def computeOrigins (instances : List Instance) : List String :=
  instances.filterMap (fun i =>
    if i.enabled then (originExec i.host).map (fun o => o ++ "/*") else none)

/-- Observable outcome of one saveInstanceOptions call: the post-state of the
two model lists, the argument passed to setAllowedOrigins (always called), the
document passed to saveOptions (none when the call was never issued) and the
status text set at the end. -/
structure SaveInstanceResult where
  finalState : OptionsModel
  originsArg : List String
  saveArg : Option OptionsModel
  status : String
deriving Repr, DecidableEq

/-- saveInstanceOptions: build the document and the origins array from the
current state, call setAllowedOrigins(origins); once it resolves, call
saveOptions(document); on success of both set status Options saved., and on
the first rejection set the status to the error's string form (the single
catch at the end of the chain).  The awaited outcomes of the two asynchronous
calls are passed in as originsResult and saveResult.  The method never writes
this.instances_ or this.groupNames_, so the final state is the input state. -/
def saveInstanceOptions (st : OptionsModel)
    (originsResult : Except JsError Unit) (saveResult : Except JsError Unit) :
    SaveInstanceResult :=
  let origins := computeOrigins st.instances
  let doc : OptionsModel := ⟨st.instances, st.groupNames⟩
  match originsResult with
  | .error e => ⟨st, origins, none, jsString e⟩
  | .ok _ =>
      match saveResult with
      | .error e => ⟨st, origins, some doc, jsString e⟩
      | .ok _ => ⟨st, origins, some doc, "Options saved."⟩

/-- Observable outcome of one saveGroupNameOptions call. -/
structure SaveGroupResult where
  finalState : OptionsModel
  saveArg : Option OptionsModel
  status : String
deriving Repr, DecidableEq

/-- saveGroupNameOptions: partition the current group names into those passing
GROUP_NAME_REGEXP and those failing it (one forEach pushing into groups and
invalidGroups); if any are invalid, report them and do not persist; else if
there are no groups, report Nothing to save and do not persist; otherwise call
saveOptions with the full document and report its success or failure. -/
def saveGroupNameOptions (st : OptionsModel) (saveResult : Except JsError Unit) :
    SaveGroupResult :=
  let p := st.groupNames.partition (fun g => groupNameMatches g)
  let groups := p.1
  let invalidGroups := p.2
  let doc : OptionsModel := ⟨st.instances, st.groupNames⟩
  if invalidGroups.length > 0 then
    ⟨st, none, "Invalid group names: " ++ String.intercalate ", " invalidGroups⟩
  else if groups.length = 0 then
    ⟨st, none, "Nothing to save"⟩
  else
    match saveResult with
    | .error e => ⟨st, some doc, jsString e⟩
    | .ok _ => ⟨st, some doc, "Options saved."⟩

/-! ## The add-group click handler and loading -/

/-- Outcome of one click on the add-group button (handleInstanceAdd's click
listener): the new group-name list, the status text set, whether the text
field was cleared, and whether a TypeError propagated out of the listener. -/
structure AddClickResult where
  groupNames : List String
  status : Option String
  fieldCleared : Bool
  threw : Bool
deriving Repr, DecidableEq

/-- The add-group click listener: run GROUP_NAME_REGEXP on the field value; on
a match call addGroupName and then clear the field, otherwise set the status
text Incorrect group name values.  When addGroupName throws (duplicate), the
exception propagates out of the listener before the field is cleared. -/
def handleAddGroupClick (names : List String) (value : String) : AddClickResult :=
  if groupNameMatches value then
    match addGroupName names value with
    | .added ns => ⟨ns, none, true, false⟩
    | .typeErrorThrown => ⟨names, none, false, true⟩
  else
    ⟨names, some "Incorrect group name values.", false, false⟩

/-- applyInstanceOptions: feed each restored instance through
addGerritInstance in order. -/
def applyInstanceOptions (cur : List Instance) (restored : List Instance) :
    List Instance :=
  restored.foldl (fun acc i => addGerritInstance acc i.host i.name i.enabled) cur

/-- applyGroupNameOptions: feed each restored group name through addGroupName
in order; a TypeError thrown by addGroupName (duplicate restored name)
propagates out of the forEach, aborting the remaining iterations with the
appends made so far kept (push mutates in place).  The Boolean records whether
such a TypeError propagated. -/
def applyGroupNameOptions (cur : List String) (restored : List String) :
    List String × Bool :=
  match restored with
  | [] => (cur, false)
  | g :: rest =>
      match addGroupName cur g with
      | .added ns => applyGroupNameOptions ns rest
      | .typeErrorThrown => (cur, true)

/-- Observable outcome of one loadOptions call: the post-state of the model,
the status texts set during the call, the propagated fetch failure if the
fetch rejected, and whether a TypeError (duplicate restored group name)
propagated out of the then-callback.  No path of loadOptions sets a status
text: on fetch rejection the callback is skipped, addGerritInstance never
calls setStatusText, and addGroupName throws before its only status call
takes effect. -/
structure LoadResult where
  model : OptionsModel
  statuses : List String
  failure : Option JsError
  typeError : Bool
deriving Repr, DecidableEq

/-- loadOptions: await fetchOptions(); on success apply the restored instances
and then the restored group names through the same add logic used for manual
entry; on rejection there is no local handler, so the failure propagates,
nothing touches the model and no status text is set. -/
def loadOptions (st : OptionsModel) (fetchResult : Except JsError OptionsModel) :
    LoadResult :=
  match fetchResult with
  | .error e => ⟨st, [], some e, false⟩
  | .ok doc =>
      let newInstances := applyInstanceOptions st.instances doc.instances
      let g := applyGroupNameOptions st.groupNames doc.groupNames
      ⟨⟨newInstances, g.1⟩, [], none, g.2⟩

/-! ## Helper lemmas about addGerritInstance -/

/-- Adding an instance makes the number of entries with its host the maximum
of one and the previous number: the update path leaves the count unchanged
(and positive), the append path raises it from zero to one. -/
theorem hostCount_addGerritInstance (l : List Instance) (h n : String) (e : Bool) :
    hostCount (addGerritInstance l h n e) h = max 1 (hostCount l h) := by
  induction l with
  | nil => simp [addGerritInstance, hostCount]
  | cons i rest ih =>
      by_cases hh : i.host = h
      · simp [addGerritInstance, hostCount, List.filter_cons, hh]
      · simp only [addGerritInstance, hh, if_false]
        simp only [hostCount, List.filter_cons] at *
        simp [hh, ih]

/-- A zero host count means no element of the list carries the host. -/
theorem hostCount_eq_zero_iff (l : List Instance) (h : String) :
    hostCount l h = 0 ↔ ∀ i ∈ l, i.host ≠ h := by
  simp [hostCount, List.length_eq_zero, List.filter_eq_nil_iff]

/-- Unfolding the host count one element at a time. -/
theorem hostCount_cons (i : Instance) (rest : List Instance) (h : String) :
    hostCount (i :: rest) h = (if i.host = h then 1 else 0) + hostCount rest h := by
  by_cases hh : i.host = h <;>
    simp [hostCount, List.filter_cons, hh, Nat.add_comm]

/-- When exactly one entry carries the host, adding with that host takes the
update path, so afterwards every entry with that host has the new name and an
enabled flag forced to true. -/
theorem addGerritInstance_update_forces (l : List Instance) (h n : String) (e : Bool)
    (hc : hostCount l h = 1) :
    ∀ i ∈ addGerritInstance l h n e, i.host = h → i.name = n ∧ i.enabled = true := by
  induction l with
  | nil => simp [hostCount] at hc
  | cons i rest ih =>
      by_cases hh : i.host = h
      · have hz : hostCount rest h = 0 := by
          rw [hostCount_cons, if_pos hh] at hc
          omega
        intro j hj hjh
        simp only [addGerritInstance, hh, if_true] at hj
        rcases List.mem_cons.mp hj with rfl | hjr
        · exact ⟨rfl, rfl⟩
        · exact absurd hjh ((hostCount_eq_zero_iff rest h).mp hz j hjr)
      · have hc' : hostCount rest h = 1 := by
          rw [hostCount_cons, if_neg hh] at hc
          omega
        intro j hj hjh
        simp only [addGerritInstance, hh, if_false] at hj
        rcases List.mem_cons.mp hj with rfl | hjr
        · exact absurd hjh hh
        · exact ih hc' j hjr hjh

/-- Two adds with distinct hosts starting from the empty list produce exactly
the two pushed records, in order. -/
theorem addGerritInstance_two_distinct (h1 h2 n1 n2 : String) (e1 e2 : Bool)
    (hne : h1 ≠ h2) :
    addGerritInstance (addGerritInstance [] h1 n1 e1) h2 n2 e2 =
      [⟨h1, n1, e1⟩, ⟨h2, n2, e2⟩] := by
  simp [addGerritInstance, hne]

/-- Unfolding saveGroupNameOptions: the partition is the two filters, keeping
the branch structure of the source. -/
theorem saveGroupNameOptions_eq (st : OptionsModel) (rs : Except JsError Unit) :
    saveGroupNameOptions st rs =
      if 0 < (st.groupNames.filter (fun g => !groupNameMatches g)).length then
        ⟨st, none, "Invalid group names: " ++ String.intercalate ", "
          (st.groupNames.filter (fun g => !groupNameMatches g))⟩
      else if (st.groupNames.filter (fun g => groupNameMatches g)).length = 0 then
        ⟨st, none, "Nothing to save"⟩
      else
        match rs with
        | .error e => ⟨st, some ⟨st.instances, st.groupNames⟩, jsString e⟩
        | .ok _ => ⟨st, some ⟨st.instances, st.groupNames⟩, "Options saved."⟩ := by
  simp only [saveGroupNameOptions, List.partition_eq_filter_filter,
    Function.comp_def, gt_iff_lt]

/-! ## Claim theorems -/

/-- C1 counterexample: adding host h twice, the second time with enabled set
to false, leaves one instance whose enabled flag is TRUE (the update path
forces it), so the claim that the surviving instance's enabled field equals
the second call's enabled argument is false at this input. -/
theorem addGerritInstance_counterexample :
    addGerritInstance (addGerritInstance [] "h" "n1" true) "h" "n2" false =
      [⟨"h", "n2", true⟩] ∧
    ¬ ∀ i ∈ addGerritInstance (addGerritInstance [] "h" "n1" true) "h" "n2" false,
        i.enabled = false := by
  decide

/-- C1 (amended): starting from a state with at most one instance carrying
host h, two addGerritInstance calls with host h leave exactly one instance
with that host, whose name is the second call's name and whose enabled flag is
true regardless of the second call's enabled argument; and for distinct hosts
h1 and h2, adding h1 then h2 from the empty list yields the two distinct
pushed instances. -/
theorem addGerritInstance_dedup_update (l : List Instance)
    (h h1 h2 n1 n2 m1 m2 : String) (e1 e2 f1 f2 : Bool)
    (hu : hostCount l h ≤ 1) (hne : h1 ≠ h2) :
    (hostCount (addGerritInstance (addGerritInstance l h m1 f1) h m2 f2) h = 1 ∧
      ∀ i ∈ addGerritInstance (addGerritInstance l h m1 f1) h m2 f2,
        i.host = h → i.name = m2 ∧ i.enabled = true) ∧
    addGerritInstance (addGerritInstance [] h1 n1 e1) h2 n2 e2 =
      [⟨h1, n1, e1⟩, ⟨h2, n2, e2⟩] := by
  have hc1 : hostCount (addGerritInstance l h m1 f1) h = 1 := by
    rw [hostCount_addGerritInstance]
    omega
  refine ⟨⟨?_, ?_⟩, addGerritInstance_two_distinct h1 h2 n1 n2 e1 e2 hne⟩
  · rw [hostCount_addGerritInstance, hc1]
    omega
  · exact addGerritInstance_update_forces _ h m2 f2 hc1

/-- C1 witness: the amended theorem applied at concrete inputs. -/
theorem addGerritInstance_dedup_update_witness :
    hostCount [] "h" ≤ 1 ∧ ("a" : String) ≠ "b" ∧
    ((hostCount (addGerritInstance (addGerritInstance [] "h" "x" true) "h" "y" false) "h" = 1 ∧
        ∀ i ∈ addGerritInstance (addGerritInstance [] "h" "x" true) "h" "y" false,
          i.host = "h" → i.name = "y" ∧ i.enabled = true) ∧
      addGerritInstance (addGerritInstance [] "a" "p" true) "b" "q" false =
        [⟨"a", "p", true⟩, ⟨"b", "q", false⟩]) :=
  ⟨by decide, by decide,
   addGerritInstance_dedup_update [] "h" "a" "b" "p" "q" "x" "y" true false true false
     (by decide) (by decide)⟩

/-- C2 (code bug): at the failing input, addGroupName on a list already
containing the name does NOT set the claimed transient status message: the
duplicate branch evaluates this.setStatusText inside an unbound strict-mode
forEach callback, where this is undefined, so a TypeError propagates out of
the call before any status is set (and before the push runs, so nothing is
inserted either — the at-most-once consequence survives, but by crash rather
than by the claimed graceful no-op).  A fresh name is appended normally. -/
theorem addGroupName_duplicate_throws :
    addGroupName ["g"] "g" = AddGroupOutcome.typeErrorThrown ∧
    addGroupName [] "g" = AddGroupOutcome.added ["g"] := by
  decide

/-- C3 (code bug): the compiled GROUP_NAME_REGEXP accepts both foo@bar.baz and
foo/bar (template-literal escaping turned the intended literal dot into the
any-character metacharacter), while the spec's literal-dot pattern rejects
foo/bar; consequently the add-group click handler adds foo/bar with no error
status, and saveGroupNameOptions treats it as valid and persists it. -/
theorem groupName_regexp_dot_unescaped :
    groupNameMatches "foo@bar.baz" = true ∧
    groupNameMatches "foo/bar" = true ∧
    specGroupNameMatches "foo@bar.baz" = true ∧
    specGroupNameMatches "foo/bar" = false ∧
    (handleAddGroupClick [] "foo/bar").groupNames = ["foo/bar"] ∧
    (handleAddGroupClick [] "foo/bar").status = none ∧
    (saveGroupNameOptions ⟨[], ["foo/bar"]⟩ (Except.ok ())).saveArg =
      some ⟨[], ["foo/bar"]⟩ := by
  decide

/-- C4: the origins array saveInstanceOptions hands to setAllowedOrigins is
exactly the origin (the capture group of ORIGIN_REGEXP, with the wildcard
suffix the code appends) of every instance with enabled true, in order, and
nothing is derived from any instance with enabled false. -/
theorem saveInstanceOptions_origins_enabled_exact (l : List Instance) :
    computeOrigins l =
      (l.filter (fun i => i.enabled)).filterMap
        (fun i => (originExec i.host).map (fun o => o ++ "/*")) := by
  induction l with
  | nil => rfl
  | cons i rest ih =>
      cases he : i.enabled <;>
        simp_all [computeOrigins, List.filterMap_cons, List.filter_cons, he]

/-- C5: saveGroupNameOptions performs the three-way case analysis on the
current group names: any name failing GROUP_NAME_REGEXP aborts the save and
reports the invalid names; an all-valid but empty list reports Nothing to
save without persisting; otherwise the full document is persisted. -/
theorem saveGroupNameOptions_case_analysis (st : OptionsModel)
    (rs : Except JsError Unit) :
    ((∃ g ∈ st.groupNames, groupNameMatches g = false) →
        (saveGroupNameOptions st rs).saveArg = none ∧
        (saveGroupNameOptions st rs).status =
          "Invalid group names: " ++ String.intercalate ", "
            (st.groupNames.filter (fun g => !groupNameMatches g))) ∧
    ((∀ g ∈ st.groupNames, groupNameMatches g = true) → st.groupNames = [] →
        (saveGroupNameOptions st rs).saveArg = none ∧
        (saveGroupNameOptions st rs).status = "Nothing to save") ∧
    ((∀ g ∈ st.groupNames, groupNameMatches g = true) → st.groupNames ≠ [] →
        (saveGroupNameOptions st rs).saveArg = some ⟨st.instances, st.groupNames⟩) := by
  refine ⟨?_, ?_, ?_⟩
  · rintro ⟨g, hg, hgm⟩
    have hmem : g ∈ st.groupNames.filter (fun g => !groupNameMatches g) :=
      List.mem_filter.mpr ⟨hg, by simp [hgm]⟩
    have hlen : 0 < (st.groupNames.filter (fun g => !groupNameMatches g)).length :=
      List.length_pos.mpr (List.ne_nil_of_mem hmem)
    rw [saveGroupNameOptions_eq, if_pos hlen]
    exact ⟨rfl, rfl⟩
  · intro _ hnil
    obtain ⟨inst, gns⟩ := st
    simp only at hnil
    subst hnil
    exact ⟨rfl, rfl⟩
  · intro hall hne
    have hinv : st.groupNames.filter (fun g => !groupNameMatches g) = [] :=
      List.filter_eq_nil_iff.mpr (fun g hg => by simp [hall g hg])
    have hgr : st.groupNames.filter (fun g => groupNameMatches g) = st.groupNames :=
      List.filter_eq_self.mpr (fun g hg => hall g hg)
    have h1 : ¬ 0 < (st.groupNames.filter (fun g => !groupNameMatches g)).length := by
      rw [hinv]
      simp
    have h2 : ¬ (st.groupNames.filter (fun g => groupNameMatches g)).length = 0 := by
      rw [hgr]
      simpa [List.length_eq_zero] using hne
    rw [saveGroupNameOptions_eq, if_neg h1, if_neg h2]
    cases rs <;> rfl

/-- C5 witness: the case-analysis theorem applied at three concrete states,
one per branch (the name a fails the compiled pattern, abc passes it). -/
theorem saveGroupNameOptions_case_analysis_witness :
    (∃ g ∈ ["a"], groupNameMatches g = false) ∧
    (saveGroupNameOptions ⟨[], ["a"]⟩ (Except.ok ())).saveArg = none ∧
    (∀ g ∈ ([] : List String), groupNameMatches g = true) ∧
    (saveGroupNameOptions ⟨[], []⟩ (Except.ok ())).status = "Nothing to save" ∧
    (∀ g ∈ ["abc"], groupNameMatches g = true) ∧
    (saveGroupNameOptions ⟨[], ["abc"]⟩ (Except.ok ())).saveArg =
      some ⟨[], ["abc"]⟩ :=
  ⟨by decide,
   ((saveGroupNameOptions_case_analysis ⟨[], ["a"]⟩ (Except.ok ())).1 (by decide)).1,
   by decide,
   ((saveGroupNameOptions_case_analysis ⟨[], []⟩ (Except.ok ())).2.1 (by decide) rfl).2,
   by decide,
   (saveGroupNameOptions_case_analysis ⟨[], ["abc"]⟩ (Except.ok ())).2.2
     (by decide) (by decide)⟩

/-- C6: loading the persisted document with the single instance
(https://a.example, A, enabled) and the single group name team-x into the
empty model reproduces exactly that model, with no status text set and no
failure. -/
theorem loadOptions_roundtrip :
    loadOptions ⟨[], []⟩
        (Except.ok ⟨[⟨"https://a.example", "A", true⟩], ["team-x"]⟩) =
      ⟨⟨[⟨"https://a.example", "A", true⟩], ["team-x"]⟩, [], none, false⟩ := by
  decide

/-- C7: saveInstanceOptions always issues setAllowedOrigins with the computed
origins; saveOptions is issued with the full document exactly when that first
step resolved; when both steps succeed the status is Options saved., and the
first rejection of either step sets the status to the error's string form. -/
theorem saveInstanceOptions_sequencing (st : OptionsModel)
    (r2 : Except JsError Unit) (e1 e2 : JsError) :
    (saveInstanceOptions st (Except.error e1) r2).saveArg = none ∧
    (saveInstanceOptions st (Except.error e1) r2).status = jsString e1 ∧
    (saveInstanceOptions st (Except.error e1) r2).originsArg =
      computeOrigins st.instances ∧
    (saveInstanceOptions st (Except.ok ()) r2).saveArg =
      some ⟨st.instances, st.groupNames⟩ ∧
    (saveInstanceOptions st (Except.ok ()) r2).originsArg =
      computeOrigins st.instances ∧
    (saveInstanceOptions st (Except.ok ()) (Except.error e2)).status = jsString e2 ∧
    (saveInstanceOptions st (Except.ok ()) (Except.ok ())).status =
      "Options saved." := by
  cases r2 <;> exact ⟨rfl, rfl, rfl, rfl, rfl, rfl, rfl⟩

/-- C8: when the fetch rejects, loadOptions leaves the model untouched, sets
no status text, and the failure propagates as the call's outcome. -/
theorem loadOptions_error_propagates (st : OptionsModel) (e : JsError) :
    loadOptions st (Except.error e) = ⟨st, [], some e, false⟩ :=
  rfl

/-- C9 (implicit): a string is in the origins array iff it is capture group 1
of ORIGIN_REGEXP on some enabled instance's host with the wildcard suffix
appended; an enabled instance whose host does not match contributes nothing
(the concrete state with the single enabled non-matching host notaurl yields
the empty origins array) and its save still completes with Options saved. -/
theorem computeOrigins_membership (l : List Instance) (s : String)
    (st : OptionsModel) :
    (s ∈ computeOrigins l ↔
      ∃ i ∈ l, i.enabled = true ∧ ∃ o, originExec i.host = some o ∧ s = o ++ "/*") ∧
    (saveInstanceOptions ⟨[⟨"notaurl", "N", true⟩], []⟩
        (Except.ok ()) (Except.ok ())).originsArg = [] ∧
    (saveInstanceOptions ⟨[⟨"notaurl", "N", true⟩], []⟩
        (Except.ok ()) (Except.ok ())).status = "Options saved." ∧
    (saveInstanceOptions st (Except.ok ()) (Except.ok ())).originsArg =
      computeOrigins st.instances := by
  refine ⟨?_, by decide, by decide, rfl⟩
  constructor
  · intro hs
    obtain ⟨i, hi, hf⟩ := List.mem_filterMap.mp hs
    by_cases he : i.enabled = true
    · simp only [he, if_true, Option.map_eq_some'] at hf
      obtain ⟨o, ho, hso⟩ := hf
      exact ⟨i, hi, he, o, ho, hso.symm⟩
    · simp [he] at hf
  · rintro ⟨i, hi, he, o, ho, rfl⟩
    exact List.mem_filterMap.mpr ⟨i, hi, by simp [he, ho]⟩

/-- C10 (frame): neither save operation writes the two model lists; both
leave the state identical to the input state whatever the persistence
outcomes are. -/
theorem save_frame_preservation (st : OptionsModel)
    (r1 r2 rs : Except JsError Unit) :
    (saveInstanceOptions st r1 r2).finalState = st ∧
    (saveGroupNameOptions st rs).finalState = st := by
  constructor
  · cases r1 <;> cases r2 <;> rfl
  · rw [saveGroupNameOptions_eq]
    split
    · rfl
    · split
      · rfl
      · cases rs <;> rfl
